import Mathlib

/-!
Verification of the fbfh-trade scan engine.

Shallow embedding of the Python sources under `src/`:
* `src/fbfh_trade/vat.py` (identical copy in `src/runner.py`): checksum
  validator and identifier stream;
* `src/api_client.py` / `src/runner.py`: 429 wait computation, the
  post-with-retry loop, and the fatal-stop handler;
* `src/runner.py`: the orchestrator's interrupt checkpoint and completion
  cursor;
* `src/parsing_utils.py`: `pick_year_row`;
* `src/persistence.py`: atomic/idempotent save, backups, corrupt-file
  quarantine on load.

Python strings are modelled as Lean `String` (cells of remote rows by their
`str()` rendering), machine integers as `Nat`/`Int`, Python floats as `ℚ`
(no rounding behaviour is relevant to the claims), fallible code as
`Option`/`Except`, and the process filesystem as an explicit `FS` state.
-/

namespace FbfhTrade

/-- Per-position weights `WEIGHTS = [1, 2, 1, 2, 1, 2, 4, 1]` from
`src/fbfh_trade/vat.py`. -/
def WEIGHTS : List Nat := [1, 2, 1, 2, 1, 2, 4, 1]

/-- `sum_digits(n) = n // 10 + n % 10` from `src/fbfh_trade/vat.py`. -/
def sum_digits (n : Nat) : Nat := n / 10 + n % 10

/-- ASCII decimal digit test, modelling `str.isdigit` on the ASCII strings
this program produces. -/
def isDigitChar (c : Char) : Bool := 48 ≤ c.toNat && c.toNat ≤ 57

/-- Numeric value of an ASCII digit character, modelling Python `int(ch)`
for a single digit. -/
def digitVal (c : Char) : Nat := c.toNat - 48

/-- The guard `len(s) == 8 and s.isdigit()` used by
`explain_uniform_number` and `uniform_number_stream`. -/
def isEightDigitString (s : String) : Bool :=
  s.length == 8 && s.data.all isDigitChar

/-- `explain_uniform_number` from `src/fbfh_trade/vat.py`: raises
`ValueError` (modelled as `Except.error`) unless the input is an 8-digit
string; otherwise returns per-position products, their digit sums, and the
total `Z`. -/
def explain_uniform_number (s : String) :
    Except String (List Nat × List Nat × Nat) :=
  if isEightDigitString s then
    let digits := s.data.map digitVal
    let products := List.zipWith (fun d w => d * w) digits WEIGHTS
    let per_digit_sums := products.map sum_digits
    Except.ok (products, per_digit_sums, per_digit_sums.sum)
  else
    Except.error "統一編號必須是 8 碼數字字串。"

/-- `is_valid_uniform_number` from `src/fbfh_trade/vat.py`: valid iff
`Z % 5 == 0`, or the character at index 6 is `'7'` and `(Z+1) % 5 == 0`. -/
def is_valid_uniform_number (s : String) : Except String Bool :=
  match explain_uniform_number s with
  | Except.error e => Except.error e
  | Except.ok (_, _, z) =>
    if z % 5 = 0 then Except.ok true
    else if s.data.getD 6 ' ' = '7' ∧ (z + 1) % 5 = 0 then Except.ok true
    else Except.ok false

/-- The claim's digit fold: `fold(n) = n` when `n < 10`, else the sum of
`n`'s two decimal digits.  Spelled from the claim text, to be compared with
the code's `sum_digits`. -/
def specFold (n : Nat) : Nat := if n < 10 then n else n / 10 + n % 10

/-- The claim's checksum total: sum over positions of
`fold(d_i * w_i)`.  Spelled from the claim text. -/
def specZ (s : String) : Nat :=
  (List.zipWith (fun d w => specFold (d * w)) (s.data.map digitVal) WEIGHTS).sum

/-- Little-endian decimal digits, fuel-indexed so that it is structurally
recursive (hence kernel-reducible); shown equal to `Nat.digits 10` below. -/
def decDigitsAux : Nat → Nat → List Nat
  | 0, _ => []
  | _ + 1, 0 => []
  | fuel + 1, n + 1 => ((n + 1) % 10) :: decDigitsAux fuel ((n + 1) / 10)

/-- Little-endian decimal digits of `n` (empty for `0`). -/
def decDigits (n : Nat) : List Nat := decDigitsAux n n

/-- Digit-to-character table used when rendering `f"{n:08d}"`. -/
def digitChar : Nat → Char
  | 0 => '0'
  | 1 => '1'
  | 2 => '2'
  | 3 => '3'
  | 4 => '4'
  | 5 => '5'
  | 6 => '6'
  | 7 => '7'
  | 8 => '8'
  | 9 => '9'
  | _ => '*'

/-- Python `f"{n:08d}"`: the decimal rendering of `n`, left-padded with
zeros to width 8 (at least 9 characters when `n ≥ 10^8`). -/
def format08 (n : Nat) : String :=
  String.mk
    (List.replicate (8 - ((decDigits n).reverse.map digitChar).length) '0' ++
      (decDigits n).reverse.map digitChar)

/-- Horner evaluation of a decimal string, the value `int(s)` for the
unsigned decimal strings this program passes around. -/
def strToNat (s : String) : Nat :=
  s.data.foldl (fun a c => 10 * a + digitVal c) 0

/-- Python `int(s)`, modelled for the unsigned decimal strings this program
passes: `none` stands for the `ValueError` raised on anything else. -/
def parsePyInt (s : String) : Option Int :=
  if s.data.isEmpty then none
  else if s.data.all isDigitChar then some (strToNat s) else none

/-- The filter applied by the stream loop of `uniform_number_stream`:
`is_valid_uniform_number(f"{n:08d}")`.  The loop only builds 8-digit
strings, so the validator never raises there; an error is read as a
non-yield. -/
def streamKeep (m : Nat) : Bool :=
  match is_valid_uniform_number (format08 m) with
  | Except.ok b => b
  | Except.error _ => false

/-- `uniform_number_stream` from `src/fbfh_trade/vat.py`: raises unless
`start` is an 8-digit string; otherwise the increment-by-one loop from
`int(start)` up to `99_999_999`, yielding `f"{n:08d}"` for the valid
candidates, unrolled to the (finite) list of yielded strings. -/
def uniform_number_stream (start : String) : Except String (List String) :=
  if isEightDigitString start then
    let n := strToNat start
    Except.ok
      (((List.range' n (100000000 - n)).filter streamKeep).map format08)
  else
    Except.error "start 必須是 8 碼數字字串。"

/-- The completion checkpoint of `runner.py`'s `main` (stream exhausted):
`save_state(100_000_000)`. -/
def completed_scan_cursor : Nat := 100000000

/-- The restart path of `runner.py`'s `main` when no `--start` override is
given: the persisted cursor is formatted with `f"{start_int:08d}"` and
handed to `uniform_number_stream`. -/
def restart_stream_of_cursor (cursor : Nat) : Except String (List String) :=
  uniform_number_stream (format08 cursor)

/-- The `Retry-After` header as the branches of `_compute_429_wait_seconds`
classify it: parses as a float (seconds), parses as an HTTP date (carrying
the remaining seconds `dt.timestamp() - time.time()`), or is
empty/unparseable. -/
inductive RAHeader
  | numeric (secs : ℚ)
  | httpDate (remaining : ℚ)
  | other

/-- `_compute_429_wait_seconds` from `src/api_client.py` (same logic in
`src/runner.py`): a numeric header wins, then an HTTP date, else
exponential backoff `base * 2^(tries-1)` capped at 300 seconds with
`base = cooldown_on_warn or 2.0`.  Floats are modelled as rationals. -/
def compute_429_wait_seconds (tries : Int) (cooldown_on_warn : ℚ)
    (ra : RAHeader) : ℚ :=
  match ra with
  | RAHeader.numeric secs => max 0 secs
  | RAHeader.httpDate remaining => max 0 remaining
  | RAHeader.other =>
    let base : ℚ := if cooldown_on_warn = 0 then 2 else cooldown_on_warn
    min (base * 2 ^ (max 0 (tries - 1)).toNat) 300

/-- One remote response, classified by exactly the fields
`post_company_with_429_retry` inspects: request exception; HTTP 429 with
its `Retry-After` header; other non-200 status; undecodable body;
non-object JSON root; or a decoded object carrying its `result` flag,
whether `errmsg` matches the "must use web UI" signature, the optional
`viewmodel.verifySHidden` echo, and whether `retrieveDataList` exists. -/
inductive RemoteResp
  | exnRequest
  | resp429 (retryAfter : RAHeader)
  | respStatus (code : Nat)
  | respNotJson
  | respJsonNotDict
  | respDict (result : String) (errmsgWebUI : Bool) (vhsEcho : Option String)
      (hasRetrieveDataList : Bool)

/-- How one call of `post_company_with_429_retry` ends: a fatal stop (via
`fatal_stop_and_log`), a returned payload, or the environment script ran
out while the loop would keep going (429 retries never terminate the loop
by themselves). -/
inductive PostOutcome
  | fatal (reason : String)
  | payload
  | pending

/-- Observable result of one call of `post_company_with_429_retry`: the
outcome, the number of token refreshes performed during the call, and the
final value of `VERIFY_S_HIDDEN`. -/
structure PostResult where
  outcome : PostOutcome
  refreshes : Nat
  finalToken : String

/-- The `while True` loop of `post_company_with_429_retry`
(`src/api_client.py` lines 107-278, `src/runner.py` lines 262-430), driven
by a script of successive responses and an oracle listing the results of
successive `get_verify_s_hidden` calls (`none` = the call raised).
`setsFlagOnRefresh` is the one difference between the two copies:
`api_client.py` sets `did_refresh_vhs = True` on a successful refresh
(line 236), `runner.py` never sets it. -/
def post_company_loop (setsFlagOnRefresh : Bool) (script : List RemoteResp)
    (oracle : List (Option String)) (hasOracle : Bool) (vhs : String)
    (didRefresh : Bool) (tries : Nat) (max429 : Int) : PostResult :=
  match script with
  | [] => ⟨PostOutcome.pending, 0, vhs⟩
  | resp :: rest =>
    match resp with
    | RemoteResp.exnRequest => ⟨PostOutcome.fatal "RequestException", 0, vhs⟩
    | RemoteResp.resp429 _ =>
      let tries1 := tries + 1
      if 0 ≤ max429 ∧ max429 ≤ (tries1 : Int) then
        ⟨PostOutcome.fatal "Too many 429 retries", 0, vhs⟩
      else
        post_company_loop setsFlagOnRefresh rest oracle hasOracle vhs
          didRefresh tries1 max429
    | RemoteResp.respStatus code =>
      ⟨PostOutcome.fatal ("HTTP " ++ toString code), 0, vhs⟩
    | RemoteResp.respNotJson =>
      ⟨PostOutcome.fatal "Response not JSON", 0, vhs⟩
    | RemoteResp.respJsonNotDict =>
      ⟨PostOutcome.fatal "JSON root not object", 0, vhs⟩
    | RemoteResp.respDict result errmsgWebUI vhsEcho hasRDL =>
      if result ≠ "success" then
        if didRefresh = false ∧ errmsgWebUI = true ∧ hasOracle = true then
          match oracle with
          | some newVhs :: orest =>
            if newVhs ≠ "" ∧ newVhs ≠ vhs then
              let r := post_company_loop setsFlagOnRefresh rest orest
                hasOracle newVhs (setsFlagOnRefresh || didRefresh) tries max429
              ⟨r.outcome, r.refreshes + 1, r.finalToken⟩
            else ⟨PostOutcome.fatal "result != success", 0, vhs⟩
          | _ => ⟨PostOutcome.fatal "result != success", 0, vhs⟩
        else ⟨PostOutcome.fatal "result != success", 0, vhs⟩
      else
        match vhsEcho with
        | some v =>
          if v ≠ vhs then ⟨PostOutcome.fatal "verifySHidden mismatch", 0, vhs⟩
          else if hasRDL then ⟨PostOutcome.payload, 0, vhs⟩
          else ⟨PostOutcome.fatal "Missing retrieveDataList", 0, vhs⟩
        | none =>
          if hasRDL then ⟨PostOutcome.payload, 0, vhs⟩
          else ⟨PostOutcome.fatal "Missing retrieveDataList", 0, vhs⟩

/-- One call of `post_company_with_429_retry` as written in
`src/api_client.py` (initially `did_refresh_vhs = False`, `tries = 0`). -/
def post_company_api_client (script : List RemoteResp)
    (oracle : List (Option String)) (hasOracle : Bool) (vhs : String)
    (max429 : Int) : PostResult :=
  post_company_loop true script oracle hasOracle vhs false 0 max429

/-- One call of `post_company_with_429_retry` as written in
`src/runner.py` (identical, except `did_refresh_vhs` is never set). -/
def post_company_runner (script : List RemoteResp)
    (oracle : List (Option String)) (hasOracle : Bool) (vhs : String)
    (max429 : Int) : PostResult :=
  post_company_loop false script oracle hasOracle vhs false 0 max429

/-- Minimal JSON value type for persisted maps and diagnostic details. -/
inductive JVal
  | null
  | boolean (b : Bool)
  | num (n : Int)
  | str (s : String)
  | arr (items : List JVal)
  | obj (fields : List (String × JVal))

/-- The observable effects of `fatal_stop_and_log`: the persisted cursor,
the two persisted maps, the appended `errors.log` entry, and the exit
status. -/
structure FatalStopEffect where
  next_number : Int
  hits : JVal
  ok_map : JVal
  log_title : String
  log_ban_no : String
  log_reason : String
  exit_code : Nat

/-- `fatal_stop_and_log` (`src/api_client.py` lines 33-79, same code in
`src/runner.py` lines 181-229): `state.json` records `int(ban_no)` itself
(no `+1`), falling back to `int(last_legal)`, or `start_int` when
`last_legal` is `None`, if `ban_no` does not parse; saves `hits` and
`ok_map`; appends a `"Fatal stop"` entry carrying `ban_no` and the reason;
exits with status 1.  `none` models the unhandled exception when the
fallback `int(last_legal)` itself raises (nothing persisted then). -/
def fatal_stop_and_log (ban_no reason : String) (hits ok_map : JVal)
    (last_legal : Option String) (start_int : Int) :
    Option FatalStopEffect :=
  let nn? : Option Int :=
    match parsePyInt ban_no with
    | some n => some n
    | none =>
      match last_legal with
      | some l => parsePyInt l
      | none => some start_int
  nn?.map fun nn => ⟨nn, hits, ok_map, "Fatal stop", ban_no, reason, 1⟩

/-- The observable effects of the orchestrator's `KeyboardInterrupt`
checkpoint (`src/runner.py` lines 595-600): cursor, both maps, whether a
diagnostic entry was appended, and the exit status. -/
structure InterruptEffect where
  next_number : Int
  hits : JVal
  ok_map : JVal
  diag_appended : Bool
  exit_code : Nat

/-- The `except KeyboardInterrupt` handler of `runner.py`'s `main`:
`next_number = int(last_legal) + 1 if last_legal else start_int` (an empty
string is falsy), persist `state`/`hits`/`ok`, report, and return normally
(clean exit, no diagnostic entry).  `none` models `int(last_legal)`
raising — the loop only ever binds 8-digit strings. -/
def keyboard_interrupt_checkpoint (last_legal : Option String)
    (start_int : Int) (hits ok_map : JVal) : Option InterruptEffect :=
  let nn? : Option Int :=
    match last_legal with
    | none => some start_int
    | some l =>
      if l = "" then some start_int else (parsePyInt l).map (fun n => n + 1)
  nn?.map fun nn => ⟨nn, hits, ok_map, false, 0⟩

/-- A run interrupted after the first `k` identifiers of the stream have
been processed: cancellation is observed between identifiers, so
`last_legal` is then the `k`-th identifier pulled (`None` when `k = 0`). -/
def run_interrupted (vats : List String) (k : Nat) (start_int : Int)
    (hits ok_map : JVal) : Option InterruptEffect :=
  keyboard_interrupt_checkpoint ((vats.take k).getLast?) start_int hits
    ok_map

/-- Python `str.strip()` whitespace test (the ASCII whitespace Python
strips from the fields this program reads). -/
def isPySpace (c : Char) : Bool :=
  c == ' ' || c == '\t' || c == '\n' || c == '\r' || c == '\x0b' ||
    c == '\x0c'

/-- Python `str.strip()`: remove leading and trailing whitespace. -/
def pyStrip (s : String) : String :=
  String.mk (((s.data.dropWhile isPySpace).reverse.dropWhile
    isPySpace).reverse)

/-- Python `str.startswith`. -/
def pyStartsWith (s pre : String) : Bool := pre.data.isPrefixOf s.data

/-- One element of `retrieveDataList` as `pick_year_row` sees it: either
not a Python list (skipped), or a row whose cells are given by their
`str()` rendering. -/
inductive RDEntry
  | notList
  | row (cells : List String)

/-- `pick_year_row` from `src/parsing_utils.py` (same code in
`src/runner.py`): scan the entries in order, skip non-lists and rows with
fewer than 7 cells, and return the first remaining row whose cell 6
(stripped) equals `target_year`, or failing that whose cell 1 (stripped)
starts with `target_year`; `None` when no entry matches. -/
def pick_year_row (items : List RDEntry) (target_year : String) :
    Option (List String) :=
  match items with
  | [] => none
  | RDEntry.notList :: rest => pick_year_row rest target_year
  | RDEntry.row cells :: rest =>
    if cells.length < 7 then pick_year_row rest target_year
    else if pyStrip (cells.getD 6 "") = target_year then some cells
    else if pyStartsWith (pyStrip (cells.getD 1 "")) target_year = true then
      some cells
    else pick_year_row rest target_year

/-- Whether `pick_year_row` accepts the entry: a list of at least 7 cells
matching by exact cell-6 comparison or by cell-1 carrying the target as its
first characters. -/
def entryMatches (target_year : String) (e : RDEntry) : Bool :=
  match e with
  | RDEntry.notList => false
  | RDEntry.row cells =>
    decide (7 ≤ cells.length) &&
      (decide (pyStrip (cells.getD 6 "") = target_year) ||
        pyStartsWith (pyStrip (cells.getD 1 "")) target_year)

/-- One file of the durable store: path, contents, modification time. -/
structure FSFile where
  path : String
  content : String
  mtime : Nat

/-- Process-visible persistence state for `src/persistence.py`: the files,
the appended `errors.log` entries (title and details), and a logical clock
that stamps writes and renders the `_timestamp()` strings
(`datetime.now()` read strictly between operations). -/
structure FS where
  files : List FSFile
  log : List (String × JVal)
  clock : Nat

/-- `path.read_text()`: the content at `p`, `none` when absent. -/
def FS.read (fs : FS) (p : String) : Option String :=
  (fs.files.find? (fun f => f.path == p)).map FSFile.content

/-- `path.stat().st_mtime` for `p`. -/
def FS.mtimeOf (fs : FS) (p : String) : Option Nat :=
  (fs.files.find? (fun f => f.path == p)).map FSFile.mtime

/-- `path.exists()`. -/
def FS.pathExists (fs : FS) (p : String) : Bool := (fs.read p).isSome

/-- Create or overwrite `p` with content `c` carrying mtime `mt` (used for
`shutil.copy2`, which preserves the source's mtime). -/
def FS.setFile (fs : FS) (p c : String) (mt : Nat) : FS :=
  ⟨⟨p, c, mt⟩ :: fs.files.filter (fun f => !(f.path == p)), fs.log,
    fs.clock⟩

/-- An ordinary write to `p`: stamps the current clock and ticks it. -/
def FS.writeNow (fs : FS) (p c : String) : FS :=
  ⟨⟨p, c, fs.clock⟩ :: fs.files.filter (fun f => !(f.path == p)), fs.log,
    fs.clock + 1⟩

/-- `path.unlink()` / the deletion half of a rename. -/
def FS.removeFile (fs : FS) (p : String) : FS :=
  ⟨fs.files.filter (fun f => !(f.path == p)), fs.log, fs.clock⟩

/-- `os.rename` / `os.replace`: move `src` over `dst`, keeping content and
mtime; no-op when `src` is absent (callers only rename existing files). -/
def FS.renameFile (fs : FS) (src dst : String) : FS :=
  match fs.files.find? (fun f => f.path == src) with
  | none => fs
  | some f => (fs.removeFile src).setFile dst f.content f.mtime

/-- `_timestamp()` rendered from the logical clock. -/
def FS.timestamp (fs : FS) : String := toString fs.clock

/-- `append_error_log` from `src/persistence.py`: append one `(title,
details)` entry to `errors.log`. -/
def append_error_log (fs : FS) (title : String) (details : JVal) : FS :=
  ⟨fs.files, fs.log ++ [(title, details)], fs.clock⟩

/-- The `state.json` path. -/
def STATE_PATH : String := "state.json"

/-- Whether `name` matches the backup glob `path.name + ".bak.*"`. -/
def isBakName (path name : String) : Bool :=
  (path ++ ".bak.").data.isPrefixOf name.data

/-- `_prune_backups`: keep only the `BACKUP_KEEP` newest backups of `path`
(sorted by mtime, newest first); no pruning when backups are disabled or
`keep < 0`.  With distinct mtimes, surviving entries are exactly those
with fewer than `keep` strictly newer backups, which is how the sort-and-
drop is written here. -/
def prune_backups (enabled : Bool) (keep : Int) (fs : FS)
    (path : String) : FS :=
  if enabled = false then fs
  else if keep < 0 then fs
  else
    ⟨fs.files.filter (fun f =>
        !(isBakName path f.path) ||
          decide ((fs.files.filter (fun g =>
            isBakName path g.path && decide (f.mtime < g.mtime))).length <
            keep.toNat)),
      fs.log, fs.clock⟩

/-- `_backup_if_exists`: when backups are enabled and `path` exists, copy
it to `path + ".bak." + timestamp` (`shutil.copy2` keeps the source's
mtime), then prune. -/
def backup_if_exists (enabled : Bool) (keep : Int) (fs : FS)
    (path : String) : FS :=
  if enabled = false then fs
  else
    match fs.files.find? (fun f => f.path == path) with
    | none => fs
    | some f =>
      let bak := path ++ ".bak." ++ fs.timestamp
      let fs1 := fs.setFile bak f.content f.mtime
      prune_backups enabled keep ⟨fs1.files, fs1.log, fs1.clock + 1⟩ path

/-- `_atomic_write_text`: write `path + ".tmp"`, flush and fsync, then
`os.replace` it over `path`.  Durability itself has no further observable
content in this sequential model. -/
def atomic_write_text (fs : FS) (path text : String) : FS :=
  (fs.writeNow (path ++ ".tmp") text).renameFile (path ++ ".tmp") path

/-- `save_json` from `src/persistence.py`: serialize (`dumps` abstracts
`json.dumps(obj, ensure_ascii=False, indent=2)`); skip everything when the
target exists with byte-identical content; else back up and atomically
write. -/
def save_json (dumps : JVal → String) (enabled : Bool) (keep : Int)
    (fs : FS) (path : String) (obj : JVal) : FS :=
  let payload := dumps obj
  match fs.read path with
  | some c =>
    if c = payload then fs
    else
      atomic_write_text (backup_if_exists enabled keep fs path) path
        payload
  | none =>
    atomic_write_text (backup_if_exists enabled keep fs path) path payload

/-- `save_state`: the same compare/backup/atomic-write sequence applied to
`state.json` holding the one-field object. -/
def save_state (dumps : JVal → String) (enabled : Bool) (keep : Int)
    (fs : FS) (next_number : Int) : FS :=
  save_json dumps enabled keep fs STATE_PATH
    (JVal.obj [("next_number", JVal.num next_number)])

/-- `_safe_load_json`: parse the file (`parse` abstracts `json.loads`;
`none` is any decode exception); on failure rename the original to
`path + ".corrupt." + timestamp` — never overwriting it in place — append
a diagnostic entry, and return the empty dict.  `Except.error` carries the
state left by the missing-file case (the read raises, the handler's rename
raises again, the `finally` still logs, and the exception escapes); the
callers guard it with `path.exists()`. -/
def safe_load_json (parse : String → Option JVal) (fs : FS)
    (path : String) : Except FS (JVal × FS) :=
  match fs.read path with
  | none =>
    Except.error (append_error_log fs "Corrupt data JSON moved"
      (JVal.obj [("path", JVal.str path)]))
  | some content =>
    match parse content with
    | some j => Except.ok (j, fs)
    | none =>
      let corrupt := path ++ ".corrupt." ++ fs.timestamp
      Except.ok (JVal.obj [],
        append_error_log (fs.renameFile path corrupt)
          "Corrupt data JSON moved"
          (JVal.obj [("path", JVal.str path),
            ("error", JVal.str "json-decode-error"),
            ("moved_to", JVal.str corrupt)]))

/-- `load_json`: empty dict when the file does not exist, else
`_safe_load_json`. -/
def load_json (parse : String → Option JVal) (fs : FS) (path : String) :
    Except FS (JVal × FS) :=
  if fs.pathExists path then safe_load_json parse fs path
  else Except.ok (JVal.obj [], fs)

/-- Python `int(x)` applied to a decoded JSON value; `none` models the
raised `TypeError`/`ValueError`. -/
def pyIntOfJVal : JVal → Option Int
  | JVal.num n => some n
  | JVal.str s => parsePyInt s
  | JVal.boolean true => some 1
  | JVal.boolean false => some 0
  | _ => none

/-- `data.get(key, default)`; `none` models the `AttributeError` when the
decoded root is not a dict. -/
def jsonObjGet (j : JVal) (k : String) (dflt : JVal) : Option JVal :=
  match j with
  | JVal.obj kvs =>
    some (((kvs.find? (fun p => p.1 == k)).map Prod.snd).getD dflt)
  | _ => none

/-- `load_state` from `src/persistence.py`: 0 when `state.json` is absent;
on any failure inside the `try` (decode error, non-dict root,
unconvertible `next_number`) quarantine the file to
`state.json.corrupt.<timestamp>`, log, and return 0; else the stored
integer. -/
def load_state (parse : String → Option JVal) (fs : FS) : Int × FS :=
  if fs.pathExists STATE_PATH = false then (0, fs)
  else
    match fs.read STATE_PATH with
    | none => (0, fs)
    | some content =>
      let corrupt := STATE_PATH ++ ".corrupt." ++ fs.timestamp
      let quarantined :=
        append_error_log (fs.renameFile STATE_PATH corrupt)
          "Corrupt state.json moved"
          (JVal.obj [("error", JVal.str "decode-error"),
            ("moved_to", JVal.str corrupt)])
      match parse content with
      | none => (0, quarantined)
      | some j =>
        match jsonObjGet j "next_number" (JVal.num 0) with
        | none => (0, quarantined)
        | some v =>
          match pyIntOfJVal v with
          | none => (0, quarantined)
          | some n => (n, fs)

end FbfhTrade

namespace FbfhTrade

theorem specFold_eq_sum_digits (n : Nat) : specFold n = sum_digits n := by
  unfold specFold sum_digits
  split
  · next h => omega
  · rfl

theorem zipWith_specFold_eq (l₁ l₂ : List Nat) :
    List.zipWith (fun d w => specFold (d * w)) l₁ l₂ =
      (List.zipWith (fun d w => d * w) l₁ l₂).map sum_digits := by
  induction l₁ generalizing l₂ with
  | nil => simp
  | cons a t ih =>
    cases l₂ with
    | nil => simp
    | cons b t₂ =>
      simp only [List.zipWith_cons_cons, List.map_cons]
      rw [specFold_eq_sum_digits, ih]

theorem specZ_eq (s : String) :
    specZ s =
      ((List.zipWith (fun d w => d * w) (s.data.map digitVal) WEIGHTS).map
        sum_digits).sum := by
  unfold specZ
  rw [zipWith_specFold_eq]

/-- C1: for an 8-digit string, the validator accepts exactly when
`Z % 5 == 0` or (digit at index 6 equals 7 and `(Z+1) % 5 == 0`), with `Z`
the sum of the digit-folded weighted products; any other string raises an
input-format `ValueError`. -/
theorem checksum_validator_correct (s : String) :
    (isEightDigitString s = true →
      (is_valid_uniform_number s = Except.ok true ↔
        specZ s % 5 = 0 ∨
          (s.data.getD 6 ' ' = '7' ∧ (specZ s + 1) % 5 = 0))) ∧
    (isEightDigitString s = false →
      is_valid_uniform_number s = Except.error "統一編號必須是 8 碼數字字串。") := by
  constructor
  · intro h
    rw [specZ_eq]
    simp only [is_valid_uniform_number, explain_uniform_number, h, if_true]
    split_ifs with h1 h2
    · exact iff_of_true rfl (Or.inl h1)
    · exact iff_of_true rfl (Or.inr h2)
    · refine iff_of_false (by simp) ?_
      rintro (hc | hc)
      · exact h1 hc
      · exact h2 hc
  · intro h
    simp [is_valid_uniform_number, explain_uniform_number, h]

/-- Witness for C1 at the concrete inputs `"00000000"` (valid, `Z = 0`) and
`"1234567"` (7 characters: input-format error). -/
theorem checksum_validator_correct_witness :
    is_valid_uniform_number "00000000" = Except.ok true ∧
    is_valid_uniform_number "1234567" =
      Except.error "統一編號必須是 8 碼數字字串。" := by
  constructor
  · exact ((checksum_validator_correct "00000000").1 (by decide)).mpr
      (Or.inl (by decide))
  · exact (checksum_validator_correct "1234567").2 (by decide)

theorem decDigitsAux_eq (fuel : Nat) :
    ∀ n : Nat, n ≤ fuel → decDigitsAux fuel n = Nat.digits 10 n := by
  induction fuel with
  | zero =>
    intro n hn
    interval_cases n
    simp [decDigitsAux]
  | succ fuel ih =>
    intro n hn
    cases n with
    | zero => simp [decDigitsAux]
    | succ m =>
      rw [decDigitsAux, ih ((m + 1) / 10) (by omega),
        Nat.digits_def' (by norm_num) (Nat.succ_pos m)]

theorem decDigits_eq (n : Nat) : decDigits n = Nat.digits 10 n :=
  decDigitsAux_eq n n (Nat.le_refl n)

theorem decDigits_len_le (m : Nat) (h : m < 100000000) :
    (decDigits m).length ≤ 8 := by
  rw [decDigits_eq]
  rcases Nat.eq_zero_or_pos m with rfl | hm
  · simp
  · have h0 : m ≠ 0 := Nat.pos_iff_ne_zero.mp hm
    rw [Nat.digits_len 10 m (by norm_num) h0]
    have : Nat.log 10 m < 8 :=
      (Nat.lt_pow_iff_log_lt (by norm_num) h0).mp h
    omega

theorem nine_le_decDigits_len (m : Nat) (h : 100000000 ≤ m) :
    9 ≤ (decDigits m).length := by
  rw [decDigits_eq]
  by_contra hlt
  have hlen : (Nat.digits 10 m).length ≤ 8 := by omega
  have h1 : m < 10 ^ (Nat.digits 10 m).length :=
    Nat.lt_base_pow_length_digits (by norm_num)
  have h2 : (10 : Nat) ^ (Nat.digits 10 m).length ≤ 10 ^ 8 :=
    Nat.pow_le_pow_right (by norm_num) hlen
  omega

theorem format08_length (n : Nat) :
    (format08 n).length = max 8 (decDigits n).length := by
  simp only [format08, String.length]
  simp
  omega

theorem foldl_digit_lt (l : List Char) :
    ∀ a : Nat, (∀ c ∈ l, isDigitChar c = true) →
      l.foldl (fun a c => 10 * a + digitVal c) a < (a + 1) * 10 ^ l.length := by
  induction l with
  | nil =>
    intro a _
    simp
  | cons c t ih =>
    intro a hall
    have hc : isDigitChar c = true := hall c (List.mem_cons_self c t)
    have hv : digitVal c ≤ 9 := by
      simp only [isDigitChar, Bool.and_eq_true, decide_eq_true_eq] at hc
      unfold digitVal
      omega
    have ht : ∀ x ∈ t, isDigitChar x = true := fun x hx =>
      hall x (List.mem_cons_of_mem c hx)
    have h1 := ih (10 * a + digitVal c) ht
    have h2 : (10 * a + digitVal c + 1) * 10 ^ t.length ≤
        (a + 1) * 10 ^ (t.length + 1) := by
      have : 10 * a + digitVal c + 1 ≤ (a + 1) * 10 := by omega
      calc (10 * a + digitVal c + 1) * 10 ^ t.length
          ≤ (a + 1) * 10 * 10 ^ t.length := Nat.mul_le_mul_right _ this
        _ = (a + 1) * 10 ^ (t.length + 1) := by ring
    calc (c :: t).foldl (fun a c => 10 * a + digitVal c) a
        = t.foldl (fun a c => 10 * a + digitVal c) (10 * a + digitVal c) := rfl
      _ < (10 * a + digitVal c + 1) * 10 ^ t.length := h1
      _ ≤ (a + 1) * 10 ^ (t.length + 1) := h2
      _ = (a + 1) * 10 ^ (c :: t).length := by simp

theorem strToNat_lt_of_eight (s : String) (h : isEightDigitString s = true) :
    strToNat s < 100000000 := by
  simp only [isEightDigitString, Bool.and_eq_true, beq_iff_eq, List.all_eq_true,
    String.length] at h
  have := foldl_digit_lt s.data 0 (fun c hc => h.2 c hc)
  unfold strToNat
  rw [h.1] at this
  simpa using this

theorem streamKeep_eq (m : Nat) :
    streamKeep m = true ↔
      is_valid_uniform_number (format08 m) = Except.ok true := by
  unfold streamKeep
  cases h : is_valid_uniform_number (format08 m) with
  | error e => simp
  | ok b => simp

/-- C5: from an 8-digit start string, the stream yields exactly the valid
identifiers `m` in `[int(start), 99999999]` (as their 8-digit renderings),
in strictly increasing order, and it is a finite (terminating) list. -/
theorem identifier_stream_correct (start : String)
    (h : isEightDigitString start = true) :
    ∃ l : List Nat,
      uniform_number_stream start = Except.ok (l.map format08) ∧
      List.Pairwise (· < ·) l ∧
      ∀ m : Nat, m ∈ l ↔
        (strToNat start ≤ m ∧ m ≤ 99999999 ∧
          is_valid_uniform_number (format08 m) = Except.ok true) := by
  refine ⟨(List.range' (strToNat start) (100000000 - strToNat start)).filter
    streamKeep, ?_, ?_, ?_⟩
  · simp [uniform_number_stream, h]
  · exact List.Pairwise.sublist (List.filter_sublist _)
      (List.pairwise_lt_range' _ _)
  · intro m
    have hs : strToNat start < 100000000 := strToNat_lt_of_eight start h
    rw [List.mem_filter, List.mem_range'_1]
    have heq : strToNat start + (100000000 - strToNat start) = 100000000 := by
      omega
    rw [heq]
    constructor
    · rintro ⟨⟨h1, h2⟩, h3⟩
      exact ⟨h1, by omega, (streamKeep_eq m).mp h3⟩
    · rintro ⟨h1, h2, h3⟩
      exact ⟨⟨h1, by omega⟩, (streamKeep_eq m).mpr h3⟩

/-- Witness for C5 at the concrete start `"99999990"`. -/
theorem identifier_stream_correct_witness :
    ∃ l : List Nat,
      uniform_number_stream "99999990" = Except.ok (l.map format08) ∧
      List.Pairwise (· < ·) l ∧
      ∀ m : Nat, m ∈ l ↔
        (strToNat "99999990" ≤ m ∧ m ≤ 99999999 ∧
          is_valid_uniform_number (format08 m) = Except.ok true) :=
  identifier_stream_correct "99999990" (by decide)

/-- C10: completing the scan persists the cursor `100000000`; restarting
from any persisted cursor `≥ 100000000` formats a string of 9 or more
characters, so `uniform_number_stream` raises the input-format
`ValueError` at startup instead of yielding an empty stream. -/
theorem restart_after_completion_fails :
    format08 completed_scan_cursor = "100000000" ∧
    ∀ cursor : Nat, 100000000 ≤ cursor →
      restart_stream_of_cursor cursor =
        Except.error "start 必須是 8 碼數字字串。" := by
  constructor
  · rfl
  · intro cursor h
    have hL : 9 ≤ (decDigits cursor).length := nine_le_decDigits_len cursor h
    have hlen : (format08 cursor).length = (decDigits cursor).length := by
      rw [format08_length]
      omega
    have h8 : ((format08 cursor).length == 8) = false := by
      rw [hlen]
      simp only [beq_eq_false_iff_ne, ne_eq]
      omega
    have hbad : isEightDigitString (format08 cursor) = false := by
      simp [isEightDigitString, h8]
    simp [restart_stream_of_cursor, uniform_number_stream, hbad]

/-- Witness for C10 at the exact post-completion cursor `100000000`. -/
theorem restart_after_completion_fails_witness :
    restart_stream_of_cursor 100000000 =
      Except.error "start 必須是 8 碼數字字串。" :=
  restart_after_completion_fails.2 100000000 (by decide)

/-- C4 counterexample: a numeric `Retry-After` of 301 seconds is returned
as-is — the 300-second cap applies only to the exponential-backoff branch —
so "the wait duration is at most 300 seconds for every header value" is
false as stated. -/
theorem wait_seconds_cap_counterexample :
    compute_429_wait_seconds 1 2 (RAHeader.numeric 301) = 301 ∧
    ¬ compute_429_wait_seconds 1 2 (RAHeader.numeric 301) ≤ 300 := by
  have h : compute_429_wait_seconds 1 2 (RAHeader.numeric 301) = 301 :=
    max_eq_right (by norm_num)
  refine ⟨h, ?_⟩
  rw [h]
  norm_num

/-- C4 amended: the numeric branch returns `max 0 secs` and the HTTP-date
branch `max 0 remaining`, both uncapped; only the exponential-backoff
branch `base * 2^(tries-1)` (with `base = cooldown_on_warn` defaulting to
`2` when zero) is capped at — hence bounded by — 300 seconds. -/
theorem wait_seconds_branches (tries : Int) (cooldown_on_warn : ℚ)
    (ra : RAHeader) (ht : 1 ≤ tries) :
    (∀ q, ra = RAHeader.numeric q →
      compute_429_wait_seconds tries cooldown_on_warn ra = max 0 q) ∧
    (∀ d, ra = RAHeader.httpDate d →
      compute_429_wait_seconds tries cooldown_on_warn ra = max 0 d) ∧
    (ra = RAHeader.other →
      compute_429_wait_seconds tries cooldown_on_warn ra =
        min ((if cooldown_on_warn = 0 then 2 else cooldown_on_warn) *
          2 ^ (tries - 1).toNat) 300 ∧
      compute_429_wait_seconds tries cooldown_on_warn ra ≤ 300) := by
  refine ⟨?_, ?_, ?_⟩
  · rintro q rfl
    rfl
  · rintro d rfl
    rfl
  · rintro rfl
    have hmax : max 0 (tries - 1) = tries - 1 := by omega
    have he : compute_429_wait_seconds tries cooldown_on_warn RAHeader.other =
        min ((if cooldown_on_warn = 0 then 2 else cooldown_on_warn) *
          2 ^ (tries - 1).toNat) 300 := by
      simp only [compute_429_wait_seconds, hmax]
    exact ⟨he, he ▸ min_le_right _ _⟩

/-- Witness for the amended C4 at concrete inputs: a numeric header of 42
seconds on attempt 3, and the backoff branch on attempt 1 with
`cooldown_on_warn = 0`. -/
theorem wait_seconds_branches_witness :
    compute_429_wait_seconds 3 5 (RAHeader.numeric 42) = max 0 42 ∧
    compute_429_wait_seconds 1 0 RAHeader.other ≤ 300 :=
  ⟨(wait_seconds_branches 3 5 (RAHeader.numeric 42) (by norm_num)).1 42 rfl,
   ((wait_seconds_branches 1 0 RAHeader.other (by norm_num)).2.2 rfl).2⟩

theorem post_company_loop_true_bound (script : List RemoteResp) :
    ∀ (oracle : List (Option String)) (hasOracle : Bool) (vhs : String)
      (didRefresh : Bool) (tries : Nat) (max429 : Int),
      (post_company_loop true script oracle hasOracle vhs didRefresh tries
          max429).refreshes ≤ (if didRefresh then 0 else 1 : Nat) := by
  induction script with
  | nil =>
    intro oracle hasOracle vhs didRefresh tries max429
    cases didRefresh <;> simp [post_company_loop]
  | cons resp rest ih =>
    intro oracle hasOracle vhs didRefresh tries max429
    cases resp with
    | exnRequest => cases didRefresh <;> simp [post_company_loop]
    | resp429 ra =>
      simp only [post_company_loop]
      by_cases hc : 0 ≤ max429 ∧ max429 ≤ ((tries + 1 : Nat) : Int)
      · rw [if_pos hc]
        cases didRefresh <;> simp
      · rw [if_neg hc]
        exact ih oracle hasOracle vhs didRefresh (tries + 1) max429
    | respStatus code => cases didRefresh <;> simp [post_company_loop]
    | respNotJson => cases didRefresh <;> simp [post_company_loop]
    | respJsonNotDict => cases didRefresh <;> simp [post_company_loop]
    | respDict result errmsgWebUI vhsEcho hasRDL =>
      simp only [post_company_loop]
      by_cases h1 : result ≠ "success"
      · rw [if_pos h1]
        by_cases h2 : didRefresh = false ∧ errmsgWebUI = true ∧
            hasOracle = true
        · obtain ⟨hdr, hw, ho⟩ := h2
          subst hdr
          rw [if_pos ⟨rfl, hw, ho⟩]
          cases oracle with
          | nil => simp
          | cons o orest =>
            cases o with
            | none => simp
            | some newVhs =>
              dsimp only
              by_cases h3 : newVhs ≠ "" ∧ newVhs ≠ vhs
              · rw [if_pos h3]
                have hrec := ih orest hasOracle newVhs true tries max429
                simp at hrec
                simp [hrec]
              · rw [if_neg h3]
                simp
        · rw [if_neg h2]
          cases didRefresh <;> simp
      · rw [if_neg h1]
        cases vhsEcho with
        | none => cases hasRDL <;> cases didRefresh <;> simp
        | some v =>
          dsimp only
          by_cases hv : v ≠ vhs
          · rw [if_pos hv]
            cases didRefresh <;> simp
          · rw [if_neg hv]
            cases hasRDL <;> cases didRefresh <;> simp

/-- The `api_client.py` copy refreshes the token at most once per call:
`did_refresh_vhs` is set on the first refresh, so a later
`result != success` always escalates to a fatal stop. -/
theorem post_company_api_refresh_at_most_once (script : List RemoteResp)
    (oracle : List (Option String)) (hasOracle : Bool) (vhs : String)
    (max429 : Int) :
    (post_company_api_client script oracle hasOracle vhs max429).refreshes
      ≤ 1 := by
  have h := post_company_loop_true_bound script oracle hasOracle vhs false 0
    max429
  simpa [post_company_api_client] using h

/-- C3 (code bug shown at a concrete input): `src/runner.py`'s copy of
`post_company_with_429_retry` never sets `did_refresh_vhs`, so two
consecutive `result != success` responses matching the web-UI signature,
with `get_verify_s_hidden` returning the fresh tokens "t1" then "t2"
starting from token "t0", are answered by TWO token refreshes — the second
failure retries instead of escalating, contrary to the claim and to the
code's own comment `自動刷新 verifySHidden（僅嘗試一次）`.  On the same
input the `src/api_client.py` copy refreshes exactly once. -/
theorem runner_refreshes_twice :
    (post_company_runner
      [RemoteResp.respDict "fail" true none true,
       RemoteResp.respDict "fail" true none true]
      [some "t1", some "t2"] true "t0" (-1)).refreshes = 2 ∧
    (post_company_api_client
      [RemoteResp.respDict "fail" true none true,
       RemoteResp.respDict "fail" true none true]
      [some "t1", some "t2"] true "t0" (-1)).refreshes = 1 := by
  constructor <;> rfl

/-- C2: whenever processing of `ban_no` ends in a fatal stop,
`fatal_stop_and_log` persists the scan cursor as `int(ban_no)` itself (the
failing identifier, not its successor), persists the current `hits`
(Flagged) and `ok` (Accepted) maps, and appends a `"Fatal stop"`
diagnostic carrying the identifier and the reason, before terminating with
a non-zero status. -/
theorem fatal_stop_persists_failing_identifier (ban_no reason : String)
    (hits ok_map : JVal) (last_legal : Option String) (start_int : Int)
    (n : Int) (h : parsePyInt ban_no = some n) :
    ∃ e, fatal_stop_and_log ban_no reason hits ok_map last_legal start_int =
        some e ∧
      e.next_number = n ∧ e.next_number ≠ n + 1 ∧
      e.hits = hits ∧ e.ok_map = ok_map ∧
      e.log_title = "Fatal stop" ∧ e.log_ban_no = ban_no ∧
      e.log_reason = reason ∧ e.exit_code = 1 := by
  refine ⟨⟨n, hits, ok_map, "Fatal stop", ban_no, reason, 1⟩, ?_, rfl,
    ?_, rfl, rfl, rfl, rfl, rfl, rfl⟩
  · simp [fatal_stop_and_log, h]
  · show n ≠ n + 1
    omega

/-- Witness for C2 at the failing identifier `"00123457"`. -/
theorem fatal_stop_persists_failing_identifier_witness :
    ∃ e, fatal_stop_and_log "00123457" "HTTP 500" (JVal.obj [])
        (JVal.obj []) (some "00123455") 10 = some e ∧
      e.next_number = 123457 ∧ e.next_number ≠ 123457 + 1 ∧
      e.hits = JVal.obj [] ∧ e.ok_map = JVal.obj [] ∧
      e.log_title = "Fatal stop" ∧ e.log_ban_no = "00123457" ∧
      e.log_reason = "HTTP 500" ∧ e.exit_code = 1 :=
  fatal_stop_persists_failing_identifier "00123457" "HTTP 500"
    (JVal.obj []) (JVal.obj []) (some "00123455") 10 123457 (by decide)

/-- C8: on `KeyboardInterrupt` after `k` identifiers were processed, the
orchestrator checkpoints with cursor = last processed identifier + 1
(falling back to the run's start value when none was reached), persists
both result maps, appends no diagnostic, and exits cleanly with status
0. -/
theorem interrupt_checkpoint_clean (vats : List String) (k : Nat)
    (start_int : Int) (hits ok_map : JVal)
    (hv : ∀ v ∈ vats, v ≠ "" ∧ ∃ n : Int, parsePyInt v = some n) :
    ∃ e, run_interrupted vats k start_int hits ok_map = some e ∧
      e.exit_code = 0 ∧ e.diag_appended = false ∧
      e.hits = hits ∧ e.ok_map = ok_map ∧
      (vats.take k = [] → e.next_number = start_int) ∧
      (∀ v, (vats.take k).getLast? = some v →
        ∀ n, parsePyInt v = some n → e.next_number = n + 1) := by
  unfold run_interrupted keyboard_interrupt_checkpoint
  cases hlast : (vats.take k).getLast? with
  | none =>
    refine ⟨⟨start_int, hits, ok_map, false, 0⟩, rfl, rfl, rfl, rfl, rfl,
      fun _ => rfl, ?_⟩
    intro v hvv
    simp at hvv
  | some v =>
    have hmem : v ∈ vats :=
      List.take_subset k vats (List.mem_of_getLast?_eq_some hlast)
    obtain ⟨hne, n, hn⟩ := hv v hmem
    refine ⟨⟨n + 1, hits, ok_map, false, 0⟩, ?_, rfl, rfl, rfl, rfl, ?_, ?_⟩
    · simp [hne, hn]
    · intro habs
      rw [habs] at hlast
      simp at hlast
    · intro v2 hv2 n2 hn2
      have hvv : v = v2 := Option.some.inj hv2
      subst hvv
      have hnn : n = n2 := Option.some.inj (hn.symm.trans hn2)
      subst hnn
      rfl

/-- Witness for C8: one processed identifier `"00000010"`, and also the
`k = 0` fallback to the start value. -/
theorem interrupt_checkpoint_clean_witness :
    (∃ e, run_interrupted ["00000010"] 1 10 (JVal.obj []) (JVal.obj []) =
        some e ∧
      e.exit_code = 0 ∧ e.diag_appended = false ∧
      e.hits = JVal.obj [] ∧ e.ok_map = JVal.obj [] ∧
      (["00000010"].take 1 = [] → e.next_number = 10) ∧
      (∀ v, (["00000010"].take 1).getLast? = some v →
        ∀ n, parsePyInt v = some n → e.next_number = n + 1)) ∧
    (∃ e, run_interrupted ["00000010"] 0 10 (JVal.obj []) (JVal.obj []) =
        some e ∧
      e.exit_code = 0 ∧ e.diag_appended = false ∧
      e.hits = JVal.obj [] ∧ e.ok_map = JVal.obj [] ∧
      (["00000010"].take 0 = [] → e.next_number = 10) ∧
      (∀ v, (["00000010"].take 0).getLast? = some v →
        ∀ n, parsePyInt v = some n → e.next_number = n + 1)) :=
  ⟨interrupt_checkpoint_clean ["00000010"] 1 10 (JVal.obj []) (JVal.obj [])
    (by intro v hv; simp at hv; subst hv; exact ⟨by decide, 10, by decide⟩),
   interrupt_checkpoint_clean ["00000010"] 0 10 (JVal.obj []) (JVal.obj [])
    (by intro v hv; simp at hv; subst hv; exact ⟨by decide, 10, by decide⟩)⟩

/-- C9: `pick_year_row` returns `None` exactly when no entry matches, and
any returned row is the first well-formed entry (a list with at least 7
cells) whose stripped cell 6 equals the target period or whose stripped
cell 1 starts with it; non-list entries and short rows are skipped. -/
theorem pick_year_row_first_match (items : List RDEntry)
    (target_year : String) :
    (pick_year_row items target_year = none ↔
      ∀ e ∈ items, entryMatches target_year e = false) ∧
    (∀ cells, pick_year_row items target_year = some cells →
      7 ≤ cells.length ∧
      (pyStrip (cells.getD 6 "") = target_year ∨
        pyStartsWith (pyStrip (cells.getD 1 "")) target_year = true) ∧
      ∃ pre post, items = pre ++ RDEntry.row cells :: post ∧
        ∀ e ∈ pre, entryMatches target_year e = false) := by
  induction items with
  | nil => simp [pick_year_row]
  | cons e rest ih =>
    have skipCase : entryMatches target_year e = false →
        pick_year_row (e :: rest) target_year =
          pick_year_row rest target_year →
        (pick_year_row (e :: rest) target_year = none ↔
          ∀ x ∈ e :: rest, entryMatches target_year x = false) ∧
        (∀ cells, pick_year_row (e :: rest) target_year = some cells →
          7 ≤ cells.length ∧
          (pyStrip (cells.getD 6 "") = target_year ∨
            pyStartsWith (pyStrip (cells.getD 1 "")) target_year = true) ∧
          ∃ pre post, e :: rest = pre ++ RDEntry.row cells :: post ∧
            ∀ x ∈ pre, entryMatches target_year x = false) := by
      intro hskip hstep
      constructor
      · rw [hstep]
        constructor
        · intro h x hx
          rcases List.mem_cons.mp hx with rfl | hx2
          · exact hskip
          · exact ih.1.mp h x hx2
        · intro h
          exact ih.1.mpr fun x hx => h x (List.mem_cons_of_mem _ hx)
      · intro cells hc
        rw [hstep] at hc
        obtain ⟨h1, h2, pre, post, heq, hpre⟩ := ih.2 cells hc
        refine ⟨h1, h2, e :: pre, post, by rw [heq]; rfl, ?_⟩
        intro x hx
        rcases List.mem_cons.mp hx with rfl | hx2
        · exact hskip
        · exact hpre x hx2
    cases e with
    | notList => exact skipCase rfl rfl
    | row cells0 =>
      have hred : pick_year_row (RDEntry.row cells0 :: rest) target_year =
          if cells0.length < 7 then pick_year_row rest target_year
          else if pyStrip (cells0.getD 6 "") = target_year then some cells0
          else if pyStartsWith (pyStrip (cells0.getD 1 "")) target_year =
              true then some cells0
          else pick_year_row rest target_year := rfl
      by_cases hlen : cells0.length < 7
      · refine skipCase ?_ ?_
        · show (decide (7 ≤ cells0.length) &&
            (decide (pyStrip (cells0.getD 6 "") = target_year) ||
              pyStartsWith (pyStrip (cells0.getD 1 "")) target_year)) = false
          rw [Bool.and_eq_false_iff]
          left
          rw [decide_eq_false_iff_not]
          omega
        · rw [hred, if_pos hlen]
      · by_cases h6 : pyStrip (cells0.getD 6 "") = target_year
        · have hstep : pick_year_row (RDEntry.row cells0 :: rest)
              target_year = some cells0 := by
            rw [hred, if_neg hlen, if_pos h6]
          constructor
          · rw [hstep]
            refine iff_of_false (by simp) ?_
            intro hall
            have hfalse := hall (RDEntry.row cells0) (List.mem_cons_self _ _)
            have htrue : entryMatches target_year (RDEntry.row cells0) =
                true := by
              show (decide (7 ≤ cells0.length) &&
                (decide (pyStrip (cells0.getD 6 "") = target_year) ||
                  pyStartsWith (pyStrip (cells0.getD 1 "")) target_year)) =
                  true
              rw [Bool.and_eq_true, Bool.or_eq_true]
              exact ⟨decide_eq_true (by omega), Or.inl (decide_eq_true h6)⟩
            rw [hfalse] at htrue
            exact Bool.false_ne_true htrue
          · intro cells hc
            rw [hstep] at hc
            cases hc
            exact ⟨by omega, Or.inl h6, [], rest, rfl, by simp⟩
        · by_cases hsw : pyStartsWith (pyStrip (cells0.getD 1 ""))
              target_year = true
          · have hstep : pick_year_row (RDEntry.row cells0 :: rest)
                target_year = some cells0 := by
              rw [hred, if_neg hlen, if_neg h6, if_pos hsw]
            constructor
            · rw [hstep]
              refine iff_of_false (by simp) ?_
              intro hall
              have hfalse := hall (RDEntry.row cells0)
                (List.mem_cons_self _ _)
              have htrue : entryMatches target_year (RDEntry.row cells0) =
                  true := by
                show (decide (7 ≤ cells0.length) &&
                  (decide (pyStrip (cells0.getD 6 "") = target_year) ||
                    pyStartsWith (pyStrip (cells0.getD 1 ""))
                      target_year)) = true
                rw [Bool.and_eq_true, Bool.or_eq_true]
                exact ⟨decide_eq_true (by omega), Or.inr hsw⟩
              rw [hfalse] at htrue
              exact Bool.false_ne_true htrue
            · intro cells hc
              rw [hstep] at hc
              cases hc
              exact ⟨by omega, Or.inr hsw, [], rest, rfl, by simp⟩
          · refine skipCase ?_ ?_
            · show (decide (7 ≤ cells0.length) &&
                (decide (pyStrip (cells0.getD 6 "") = target_year) ||
                  pyStartsWith (pyStrip (cells0.getD 1 "")) target_year)) =
                  false
              rw [Bool.and_eq_false_iff]
              right
              rw [Bool.or_eq_false_iff]
              refine ⟨decide_eq_false h6, ?_⟩
              rw [Bool.eq_false_iff]
              exact hsw
            · rw [hred, if_neg hlen, if_neg h6, if_neg hsw]

/-- Witness for C9: a payload with a non-list entry, a short row, and a
matching row for period `"113"`. -/
theorem pick_year_row_first_match_witness :
    ∀ cells,
      pick_year_row
        [RDEntry.notList, RDEntry.row ["x"],
         RDEntry.row ["0", "113A", "名", "n", "B", "C", "113"]] "113" =
        some cells →
      7 ≤ cells.length ∧
      (pyStrip (cells.getD 6 "") = "113" ∨
        pyStartsWith (pyStrip (cells.getD 1 "")) "113" = true) ∧
      ∃ pre post,
        [RDEntry.notList, RDEntry.row ["x"],
         RDEntry.row ["0", "113A", "名", "n", "B", "C", "113"]] =
          pre ++ RDEntry.row cells :: post ∧
        ∀ e ∈ pre, entryMatches "113" e = false :=
  (pick_year_row_first_match
    [RDEntry.notList, RDEntry.row ["x"],
     RDEntry.row ["0", "113A", "名", "n", "B", "C", "113"]] "113").2

theorem string_data_append (s t : String) : (s ++ t).data = s.data ++ t.data :=
  rfl

theorem append_append_ne_self (p s t : String) (h : s.data ≠ []) :
    p ++ s ++ t ≠ p := by
  intro he
  have hd := congrArg (fun x : String => x.data.length) he
  simp only [string_data_append, List.length_append] at hd
  have h0 : s.data.length = 0 := by omega
  exact h (List.length_eq_zero.mp h0)

theorem append_ne_self (p s : String) (h : s.data ≠ []) : p ++ s ≠ p := by
  intro he
  have hd := congrArg (fun x : String => x.data.length) he
  simp only [string_data_append, List.length_append] at hd
  have h0 : s.data.length = 0 := by omega
  exact h (List.length_eq_zero.mp h0)

theorem isPrefixOf_append_self (l r : List Char) :
    l.isPrefixOf (l ++ r) = true := by
  induction l with
  | nil => simp
  | cons c t ih => simp [List.isPrefixOf_cons₂, ih]

theorem isPrefixOf_length_le (l₁ : List Char) :
    ∀ l₂ : List Char, l₁.isPrefixOf l₂ = true → l₁.length ≤ l₂.length := by
  induction l₁ with
  | nil =>
    intro l₂ _
    simp
  | cons a t ih =>
    intro l₂ h
    cases l₂ with
    | nil => exact absurd h (by simp)
    | cons b t₂ =>
      rw [List.isPrefixOf_cons₂, Bool.and_eq_true] at h
      have := ih t₂ h.2
      simp only [List.length_cons]
      omega

theorem isPrefixOf_append_cancel (p a b : List Char) :
    (p ++ a).isPrefixOf (p ++ b) = a.isPrefixOf b := by
  induction p with
  | nil => rfl
  | cons c t ih => simp [List.isPrefixOf_cons₂, ih]

theorem isBakName_bak (path t : String) :
    isBakName path (path ++ ".bak." ++ t) = true := by
  unfold isBakName
  rw [string_data_append (path ++ ".bak.") t]
  exact isPrefixOf_append_self _ _

theorem isBakName_ne_path (path name : String)
    (h : isBakName path name = true) : name ≠ path := by
  intro he
  subst he
  unfold isBakName at h
  have hle := isPrefixOf_length_le _ _ h
  rw [string_data_append, List.length_append] at hle
  have h5 : (".bak." : String).data.length = 5 := rfl
  omega

theorem isBakName_ne_tmp (path name : String)
    (h : isBakName path name = true) : name ≠ path ++ ".tmp" := by
  intro he
  subst he
  unfold isBakName at h
  rw [string_data_append path ".bak.", string_data_append path ".tmp",
    isPrefixOf_append_cancel] at h
  exact absurd h (by decide)

theorem find?_path_cons_pos (f : FSFile) (t : List FSFile) (q : String)
    (h : f.path = q) :
    (f :: t).find? (fun g => g.path == q) = some f :=
  List.find?_cons_of_pos t (beq_iff_eq.mpr h)

theorem find?_path_cons_neg (f : FSFile) (t : List FSFile) (q : String)
    (h : f.path ≠ q) :
    (f :: t).find? (fun g => g.path == q) =
      t.find? (fun g => g.path == q) :=
  List.find?_cons_of_neg t (by simp only [beq_iff_eq]; exact h)

theorem find?_filter_keep (l : List FSFile) (q : String)
    (r : FSFile → Bool) (h : ∀ f ∈ l, f.path = q → r f = true) :
    (l.filter r).find? (fun f => f.path == q) =
      l.find? (fun f => f.path == q) := by
  induction l with
  | nil => rfl
  | cons f t ih =>
    have ht : ∀ g ∈ t, g.path = q → r g = true := fun g hg =>
      h g (List.mem_cons_of_mem _ hg)
    by_cases hq : f.path = q
    · have hr : r f = true := h f (List.mem_cons_self _ _) hq
      rw [List.filter_cons_of_pos hr, find?_path_cons_pos _ _ _ hq,
        find?_path_cons_pos _ _ _ hq]
    · cases hr : r f with
      | true =>
        rw [List.filter_cons_of_pos hr, find?_path_cons_neg _ _ _ hq,
          find?_path_cons_neg _ _ _ hq]
        exact ih ht
      | false =>
        rw [List.filter_cons_of_neg (by simp [hr]),
          find?_path_cons_neg _ _ _ hq]
        exact ih ht

theorem find?_isSome_of_filter (l : List FSFile) (q : String)
    (r : FSFile → Bool)
    (h : ((l.filter r).find? (fun f => f.path == q)).isSome = true) :
    (l.find? (fun f => f.path == q)).isSome = true := by
  rw [List.find?_isSome] at h ⊢
  obtain ⟨x, hx, hpx⟩ := h
  exact ⟨x, (List.mem_filter.mp hx).1, hpx⟩

theorem FS.read_setFile_self (fs : FS) (p c : String) (mt : Nat) :
    (fs.setFile p c mt).read p = some c := by
  unfold FS.setFile FS.read
  dsimp only
  rw [find?_path_cons_pos ⟨p, c, mt⟩ _ p rfl]
  rfl

theorem FS.read_setFile_other (fs : FS) (p c : String) (mt : Nat)
    (q : String) (hq : q ≠ p) : (fs.setFile p c mt).read q = fs.read q := by
  unfold FS.setFile FS.read
  dsimp only
  rw [find?_path_cons_neg _ _ _ (fun hh => hq hh.symm)]
  rw [find?_filter_keep]
  intro f _ hfq
  simp [hfq, hq]

theorem FS.read_removeFile_self (fs : FS) (p : String) :
    (fs.removeFile p).read p = none := by
  unfold FS.removeFile FS.read
  dsimp only
  have hnone : (fs.files.filter (fun f => !(f.path == p))).find?
      (fun f => f.path == p) = none := by
    rw [List.find?_eq_none]
    intro x hx
    have hpred := (List.mem_filter.mp hx).2
    simp only [Bool.not_eq_true'] at hpred
    simp [hpred]
  rw [hnone]
  rfl

theorem FS.read_removeFile_other (fs : FS) (p q : String) (hq : q ≠ p) :
    (fs.removeFile p).read q = fs.read q := by
  unfold FS.removeFile FS.read
  dsimp only
  rw [find?_filter_keep]
  intro f _ hfq
  simp [hfq, hq]

theorem FS.read_writeNow_self (fs : FS) (p c : String) :
    (fs.writeNow p c).read p = some c := by
  unfold FS.writeNow FS.read
  dsimp only
  rw [find?_path_cons_pos ⟨p, c, fs.clock⟩ _ p rfl]
  rfl

theorem FS.read_writeNow_other (fs : FS) (p c : String) (q : String)
    (hq : q ≠ p) : (fs.writeNow p c).read q = fs.read q := by
  unfold FS.writeNow FS.read
  dsimp only
  rw [find?_path_cons_neg _ _ _ (fun hh => hq hh.symm)]
  rw [find?_filter_keep]
  intro f _ hfq
  simp [hfq, hq]

theorem FS.read_some_elim (fs : FS) (p : String) (c : String)
    (h : fs.read p = some c) :
    ∃ f, fs.files.find? (fun g => g.path == p) = some f ∧
      f.content = c := by
  unfold FS.read at h
  cases hf : fs.files.find? (fun g => g.path == p) with
  | none =>
    rw [hf] at h
    simp at h
  | some f =>
    rw [hf] at h
    simp only [Option.map_some'] at h
    exact ⟨f, rfl, Option.some.inj h⟩

theorem FS.read_renameFile_dst (fs : FS) (src dst : String) (c : String)
    (hsrc : fs.read src = some c) :
    (fs.renameFile src dst).read dst = some c := by
  obtain ⟨f, hf, hc⟩ := FS.read_some_elim fs src c hsrc
  unfold FS.renameFile
  rw [hf]
  rw [FS.read_setFile_self, hc]

theorem FS.read_renameFile_src (fs : FS) (src dst : String) (c : String)
    (hsrc : fs.read src = some c) (hne : src ≠ dst) :
    (fs.renameFile src dst).read src = none := by
  obtain ⟨f, hf, _⟩ := FS.read_some_elim fs src c hsrc
  unfold FS.renameFile
  rw [hf]
  rw [FS.read_setFile_other _ _ _ _ _ hne]
  exact FS.read_removeFile_self fs src

theorem FS.read_renameFile_other (fs : FS) (src dst q : String)
    (h1 : q ≠ src) (h2 : q ≠ dst) :
    (fs.renameFile src dst).read q = fs.read q := by
  unfold FS.renameFile
  cases hf : fs.files.find? (fun g => g.path == src) with
  | none => rfl
  | some f =>
    rw [FS.read_setFile_other _ _ _ _ _ h2]
    exact FS.read_removeFile_other fs src q h1

theorem FS.log_renameFile (fs : FS) (src dst : String) :
    (fs.renameFile src dst).log = fs.log := by
  unfold FS.renameFile
  cases fs.files.find? (fun g => g.path == src) <;> rfl

theorem FS.read_appendErrorLog (fs : FS) (t : String) (d : JVal)
    (q : String) : (append_error_log fs t d).read q = fs.read q := rfl

/-- C6: a persisted state file whose content fails to parse as JSON is
quarantined: the loader returns the empty default without raising (empty
dict from `_safe_load_json`/`load_json`, 0 from `load_state`), the
original file is renamed to `<path>.corrupt.<timestamp>` with its bytes
preserved (the original path no longer exists, so nothing is overwritten
in place), and a diagnostic entry is appended to the error log. -/
theorem corrupt_state_file_quarantined (parse : String → Option JVal)
    (fs : FS) (path content : String) (hr : fs.read path = some content)
    (hp : parse content = none) :
    (∃ fs2, safe_load_json parse fs path = Except.ok (JVal.obj [], fs2) ∧
      load_json parse fs path = Except.ok (JVal.obj [], fs2) ∧
      fs2.read path = none ∧
      fs2.read (path ++ ".corrupt." ++ fs.timestamp) = some content ∧
      ∃ d, fs2.log = fs.log ++ [("Corrupt data JSON moved", d)]) ∧
    (path = STATE_PATH →
      ∃ fs3, load_state parse fs = (0, fs3) ∧
        fs3.read STATE_PATH = none ∧
        fs3.read (STATE_PATH ++ ".corrupt." ++ fs.timestamp) =
          some content ∧
        ∃ d, fs3.log = fs.log ++ [("Corrupt state.json moved", d)]) := by
  have hnec : path ≠ path ++ ".corrupt." ++ fs.timestamp :=
    Ne.symm (append_append_ne_self path ".corrupt." fs.timestamp
      (by decide))
  have hex : fs.pathExists path = true := by
    unfold FS.pathExists
    rw [hr]
    rfl
  constructor
  · refine ⟨append_error_log
      (fs.renameFile path (path ++ ".corrupt." ++ fs.timestamp))
      "Corrupt data JSON moved"
      (JVal.obj [("path", JVal.str path),
        ("error", JVal.str "json-decode-error"),
        ("moved_to", JVal.str (path ++ ".corrupt." ++ fs.timestamp))]),
      ?_, ?_, ?_, ?_, ?_⟩
    · simp only [safe_load_json, hr, hp]
    · simp only [load_json, hex, if_true, safe_load_json, hr, hp]
    · rw [FS.read_appendErrorLog]
      exact FS.read_renameFile_src fs path _ content hr hnec
    · rw [FS.read_appendErrorLog]
      exact FS.read_renameFile_dst fs path _ content hr
    · refine ⟨JVal.obj [("path", JVal.str path),
        ("error", JVal.str "json-decode-error"),
        ("moved_to", JVal.str (path ++ ".corrupt." ++ fs.timestamp))], ?_⟩
      unfold append_error_log
      dsimp only
      rw [FS.log_renameFile]
  · intro heq
    subst heq
    refine ⟨append_error_log
      (fs.renameFile STATE_PATH
        (STATE_PATH ++ ".corrupt." ++ fs.timestamp))
      "Corrupt state.json moved"
      (JVal.obj [("error", JVal.str "decode-error"),
        ("moved_to",
          JVal.str (STATE_PATH ++ ".corrupt." ++ fs.timestamp))]),
      ?_, ?_, ?_, ?_⟩
    · simp only [load_state, hex, hr, hp]
      rfl
    · rw [FS.read_appendErrorLog]
      exact FS.read_renameFile_src fs STATE_PATH _ content hr hnec
    · rw [FS.read_appendErrorLog]
      exact FS.read_renameFile_dst fs STATE_PATH _ content hr
    · refine ⟨JVal.obj [("error", JVal.str "decode-error"),
        ("moved_to",
          JVal.str (STATE_PATH ++ ".corrupt." ++ fs.timestamp))], ?_⟩
      unfold append_error_log
      dsimp only
      rw [FS.log_renameFile]

/-- Witness for C6 on a one-file store whose `state.json` holds
unparsable bytes. -/
theorem corrupt_state_file_quarantined_witness :
    (∃ fs2, safe_load_json (fun _ => none)
        ⟨[⟨"state.json", "oops", 0⟩], [], 7⟩ "state.json" =
          Except.ok (JVal.obj [], fs2) ∧
      load_json (fun _ => none) ⟨[⟨"state.json", "oops", 0⟩], [], 7⟩
          "state.json" = Except.ok (JVal.obj [], fs2) ∧
      fs2.read "state.json" = none ∧
      fs2.read ("state.json" ++ ".corrupt." ++
        FS.timestamp ⟨[⟨"state.json", "oops", 0⟩], [], 7⟩) = some "oops" ∧
      ∃ d, fs2.log = [] ++ [("Corrupt data JSON moved", d)]) ∧
    ("state.json" = STATE_PATH →
      ∃ fs3, load_state (fun _ => none)
          ⟨[⟨"state.json", "oops", 0⟩], [], 7⟩ = (0, fs3) ∧
        fs3.read STATE_PATH = none ∧
        fs3.read (STATE_PATH ++ ".corrupt." ++
          FS.timestamp ⟨[⟨"state.json", "oops", 0⟩], [], 7⟩) =
            some "oops" ∧
        ∃ d, fs3.log = [] ++ [("Corrupt state.json moved", d)]) :=
  corrupt_state_file_quarantined (fun _ => none)
    ⟨[⟨"state.json", "oops", 0⟩], [], 7⟩ "state.json" "oops" rfl rfl

theorem FS.pathExists_eq (fs : FS) (q : String) :
    fs.pathExists q = (fs.files.find? (fun f => f.path == q)).isSome := by
  unfold FS.pathExists FS.read
  rw [Option.isSome_map']

theorem isBakName_self (path : String) : isBakName path path = false := by
  cases hb : isBakName path path
  · rfl
  · exact absurd rfl (isBakName_ne_path path path hb)

theorem prune_backups_log (keep : Int) (fs : FS) (path : String) :
    (prune_backups true keep fs path).log = fs.log := by
  unfold prune_backups
  split_ifs <;> rfl

theorem prune_backups_read (keep : Int) (fs : FS) (path q : String)
    (hkeep : ¬ keep < 0)
    (hq : ∀ f ∈ fs.files, f.path = q →
      (!(isBakName path f.path) ||
        decide ((fs.files.filter (fun g =>
          isBakName path g.path && decide (f.mtime < g.mtime))).length <
          keep.toNat)) = true) :
    (prune_backups true keep fs path).read q = fs.read q := by
  unfold prune_backups
  rw [if_neg (by simp), if_neg hkeep]
  unfold FS.read
  dsimp only
  rw [find?_filter_keep _ _ _ hq]

theorem prune_backups_pathExists (keep : Int) (fs : FS) (path q : String)
    (h : (prune_backups true keep fs path).pathExists q = true) :
    fs.pathExists q = true := by
  unfold prune_backups at h
  rw [if_neg (by simp)] at h
  by_cases hk : keep < 0
  · rw [if_pos hk] at h
    exact h
  · rw [if_neg hk] at h
    rw [FS.pathExists_eq] at h ⊢
    exact find?_isSome_of_filter _ _ _ h

/-- C7: with backups enabled (the default configuration) and a retention
count of at least one, `save_json` is a complete no-op — the state,
including every mtime and backup, is untouched — when the serialized
content byte-equals the existing file; when the content differs and the
target exists, exactly one new timestamped backup holding the previous
bytes appears (retention pruning only ever deletes older backups), the
primary file atomically acquires the new bytes, the write-to-temporary
file is gone after the rename, and nothing is logged. -/
theorem save_json_noop_or_backup (dumps : JVal → String) (keep : Int)
    (fs : FS) (path : String) (obj : JVal) (hkeep : 1 ≤ keep) :
    (fs.read path = some (dumps obj) →
      save_json dumps true keep fs path obj = fs) ∧
    (∀ c m, fs.read path = some c → c ≠ dumps obj →
      fs.mtimeOf path = some m →
      (∀ f ∈ fs.files, isBakName path f.path = true → f.mtime ≤ m) →
      (save_json dumps true keep fs path obj).read path =
          some (dumps obj) ∧
      (save_json dumps true keep fs path obj).read (path ++ ".tmp") =
          none ∧
      (save_json dumps true keep fs path obj).read
          (path ++ ".bak." ++ fs.timestamp) = some c ∧
      (save_json dumps true keep fs path obj).log = fs.log ∧
      (∀ name, isBakName path name = true →
        name ≠ path ++ ".bak." ++ fs.timestamp →
        (save_json dumps true keep fs path obj).pathExists name = true →
        fs.pathExists name = true)) := by
  have hkeep' : ¬ keep < 0 := by omega
  constructor
  · intro h
    simp [save_json, h]
  · intro c m hc hne hm hmt
    obtain ⟨f0, hf0, hf0c⟩ := FS.read_some_elim fs path c hc
    have hf0m : f0.mtime = m := by
      unfold FS.mtimeOf at hm
      rw [hf0] at hm
      simp only [Option.map_some'] at hm
      exact Option.some.inj hm
    have hbak_isbak : isBakName path (path ++ ".bak." ++ fs.timestamp) =
        true := isBakName_bak path fs.timestamp
    have hbak_ne_path : path ++ ".bak." ++ fs.timestamp ≠ path :=
      isBakName_ne_path path _ hbak_isbak
    have hbak_ne_tmp : path ++ ".bak." ++ fs.timestamp ≠ path ++ ".tmp" :=
      isBakName_ne_tmp path _ hbak_isbak
    have htmp_ne_path : path ++ ".tmp" ≠ path :=
      append_ne_self path ".tmp" (by decide)
    set fs1 : FS := ⟨⟨path ++ ".bak." ++ fs.timestamp, f0.content,
        f0.mtime⟩ ::
        fs.files.filter
          (fun g => !(g.path == path ++ ".bak." ++ fs.timestamp)),
        fs.log, fs.clock + 1⟩ with hfs1
    have hback : backup_if_exists true keep fs path =
        prune_backups true keep fs1 path := by
      unfold backup_if_exists
      rw [if_neg (by simp), hf0]
      rfl
    have hfs1_read_path : fs1.read path = some c := by
      rw [hfs1]
      show ((⟨path ++ ".bak." ++ fs.timestamp, f0.content, f0.mtime⟩ ::
        fs.files.filter
          (fun g => !(g.path == path ++ ".bak." ++ fs.timestamp))).find?
          (fun f => f.path == path)).map FSFile.content = some c
      rw [find?_path_cons_neg _ _ _ hbak_ne_path, find?_filter_keep]
      · exact hc
      · intro f _ hfq
        simp [hfq, Ne.symm hbak_ne_path]
    have hfs1_read_bak : fs1.read (path ++ ".bak." ++ fs.timestamp) =
        some c := by
      rw [hfs1]
      show ((⟨path ++ ".bak." ++ fs.timestamp, f0.content, f0.mtime⟩ ::
        fs.files.filter
          (fun g => !(g.path == path ++ ".bak." ++ fs.timestamp))).find?
          (fun f => f.path == path ++ ".bak." ++ fs.timestamp)).map
          FSFile.content = some c
      rw [find?_path_cons_pos ⟨path ++ ".bak." ++ fs.timestamp, f0.content,
        f0.mtime⟩ _ (path ++ ".bak." ++ fs.timestamp) rfl]
      simp only [Option.map_some']
      exact congrArg some hf0c
    have hPpath : ∀ f ∈ fs1.files, f.path = path →
        (!(isBakName path f.path) ||
          decide ((fs1.files.filter (fun g =>
            isBakName path g.path && decide (f.mtime < g.mtime))).length <
            keep.toNat)) = true := by
      intro f _ hfq
      rw [hfq, isBakName_self]
      rfl
    have hPbak : ∀ f ∈ fs1.files,
        f.path = path ++ ".bak." ++ fs.timestamp →
        (!(isBakName path f.path) ||
          decide ((fs1.files.filter (fun g =>
            isBakName path g.path && decide (f.mtime < g.mtime))).length <
            keep.toNat)) = true := by
      intro f hf hfq
      have hfm : f.mtime = m := by
        rw [hfs1] at hf
        rcases List.mem_cons.mp hf with rfl | hftail
        · exact hf0m
        · have hpred := (List.mem_filter.mp hftail).2
          simp only [Bool.not_eq_true', beq_eq_false_iff_ne] at hpred
          exact absurd hfq hpred
      have hnil : fs1.files.filter (fun g =>
          isBakName path g.path && decide (f.mtime < g.mtime)) = [] := by
        rw [List.filter_eq_nil_iff]
        intro g hg
        rw [hfs1] at hg
        rcases List.mem_cons.mp hg with rfl | hgtail
        · simp only [Bool.and_eq_true, decide_eq_true_eq, not_and]
          intro _
          rw [hfm]
          omega
        · have hgfs : g ∈ fs.files := (List.mem_filter.mp hgtail).1
          simp only [Bool.and_eq_true, decide_eq_true_eq, not_and]
          intro hgbak
          have hle := hmt g hgfs hgbak
          rw [hfm]
          omega
      rw [hnil]
      have hpos : (0 : Nat) < keep.toNat := by omega
      simp [hpos]
    have hprune_path : (prune_backups true keep fs1 path).read path =
        some c := by
      rw [prune_backups_read keep fs1 path path hkeep' hPpath]
      exact hfs1_read_path
    have hprune_bak : (prune_backups true keep fs1 path).read
        (path ++ ".bak." ++ fs.timestamp) = some c := by
      rw [prune_backups_read keep fs1 path _ hkeep' hPbak]
      exact hfs1_read_bak
    have hsave : save_json dumps true keep fs path obj =
        ((prune_backups true keep fs1 path).writeNow (path ++ ".tmp")
          (dumps obj)).renameFile (path ++ ".tmp") path := by
      simp only [save_json, hc]
      rw [if_neg hne]
      unfold atomic_write_text
      rw [hback]
    refine ⟨?_, ?_, ?_, ?_, ?_⟩
    · rw [hsave]
      exact FS.read_renameFile_dst _ _ _ (dumps obj)
        (FS.read_writeNow_self _ _ _)
    · rw [hsave]
      exact FS.read_renameFile_src _ _ _ (dumps obj)
        (FS.read_writeNow_self _ _ _) htmp_ne_path
    · rw [hsave]
      rw [FS.read_renameFile_other _ _ _ _ hbak_ne_tmp hbak_ne_path]
      rw [FS.read_writeNow_other _ _ _ _ hbak_ne_tmp]
      exact hprune_bak
    · rw [hsave]
      rw [FS.log_renameFile]
      show (prune_backups true keep fs1 path).log = fs.log
      rw [prune_backups_log]
    · intro name hname hname_ne hpe
      rw [hsave] at hpe
      have h1 : name ≠ path ++ ".tmp" := isBakName_ne_tmp path name hname
      have h2 : name ≠ path := isBakName_ne_path path name hname
      unfold FS.pathExists at hpe
      rw [FS.read_renameFile_other _ _ _ _ h1 h2] at hpe
      rw [FS.read_writeNow_other _ _ _ _ h1] at hpe
      have hpe2 : fs1.pathExists name = true :=
        prune_backups_pathExists keep fs1 path name hpe
      rw [FS.pathExists_eq, hfs1] at hpe2
      rw [find?_path_cons_neg _ _ _ (Ne.symm hname_ne)] at hpe2
      rw [FS.pathExists_eq]
      exact find?_isSome_of_filter fs.files name _ hpe2

/-- Witness for C7 on a one-file store at `"ok.json"`: saving identical
bytes is the identity, and saving different bytes creates the backup and
replaces the primary. -/
theorem save_json_noop_or_backup_witness :
    (save_json (fun _ => "A") true 1 ⟨[⟨"ok.json", "A", 0⟩], [], 3⟩
      "ok.json" JVal.null = ⟨[⟨"ok.json", "A", 0⟩], [], 3⟩) ∧
    ((save_json (fun _ => "B") true 1 ⟨[⟨"ok.json", "A", 0⟩], [], 3⟩
        "ok.json" JVal.null).read "ok.json" = some "B" ∧
      (save_json (fun _ => "B") true 1 ⟨[⟨"ok.json", "A", 0⟩], [], 3⟩
        "ok.json" JVal.null).read ("ok.json" ++ ".tmp") = none ∧
      (save_json (fun _ => "B") true 1 ⟨[⟨"ok.json", "A", 0⟩], [], 3⟩
        "ok.json" JVal.null).read ("ok.json" ++ ".bak." ++
          FS.timestamp ⟨[⟨"ok.json", "A", 0⟩], [], 3⟩) = some "A" ∧
      (save_json (fun _ => "B") true 1 ⟨[⟨"ok.json", "A", 0⟩], [], 3⟩
        "ok.json" JVal.null).log = [] ∧
      (∀ name, isBakName "ok.json" name = true →
        name ≠ "ok.json" ++ ".bak." ++
          FS.timestamp ⟨[⟨"ok.json", "A", 0⟩], [], 3⟩ →
        (save_json (fun _ => "B") true 1 ⟨[⟨"ok.json", "A", 0⟩], [], 3⟩
          "ok.json" JVal.null).pathExists name = true →
        FS.pathExists ⟨[⟨"ok.json", "A", 0⟩], [], 3⟩ name = true)) :=
  ⟨(save_json_noop_or_backup (fun _ => "A") 1
      ⟨[⟨"ok.json", "A", 0⟩], [], 3⟩ "ok.json" JVal.null (by decide)).1
      rfl,
   (save_json_noop_or_backup (fun _ => "B") 1
      ⟨[⟨"ok.json", "A", 0⟩], [], 3⟩ "ok.json" JVal.null (by decide)).2
      "A" 0 rfl (by decide) rfl
      (by
        intro f hf _
        simp only [List.mem_singleton] at hf
        subst hf
        exact Nat.le_refl 0)⟩

end FbfhTrade
